import Mathlib

/-!
Verification development for the roadride_mechanic repository.

The definitions below are a shallow embedding of the Go sources of the
repair-service and mechanic-service pipelines:

* `repair-service/service/service.go` — `CreateRepair`,
  `EstimateRepairCost`, `UpdateRepair`;
* `repair-service/kafka/producer.go` — the outbox dispatcher
  (`OutboxProcessor.processOutboxEvents`) and `PublishOutboxEvent`;
* `repair-service/domain/repository.go` — `SaveOutboxEvent`,
  `GetUnprocessedOutboxEvents`, `MarkOutboxEventProcessed`, `WatchRepairs`;
* `repair-service/grpcsvc/repair_server.go` — `StreamAllRepairs`;
* `mechanic-service/kafka/consumer.go` — `NewConsumer` configuration and the
  `Start` receive loop;
* `mechanic-service/service/service.go` — `processRepairEvent`;
* the mechanic-side `OutboxProcessor.processOutboxEvents` (applier).

Machine floating point (`float64` in Go) is modelled exactly: a finite double
is a dyadic rational `mant · 2 ^ exp`, and each arithmetic step rounds the
exact rational result to 53 significant bits, to nearest, ties to even.  The
values arising here are far inside the normal range of binary64, so overflow
and subnormals never occur and are not modelled.
-/

/-- Number of binary digits of a natural number, with explicit fuel so that the
recursion is structural (999 bits is far beyond every number handled here). -/
def natBits : ℕ → ℕ → ℕ
  | 0, _ => 0
  | fuel + 1, n => if n = 0 then 0 else natBits fuel (n / 2) + 1

/-- The rational number 2 ^ e for an integer exponent e. -/
def zpow2 (e : ℤ) : ℚ :=
  if 0 ≤ e then ((2 ^ e.toNat : ℕ) : ℚ) else ((2 ^ (-e).toNat : ℕ) : ℚ)⁻¹

/-- A finite IEEE-754 binary64 value, represented exactly as `mant · 2 ^ exp`.
The representation is not unique; value-level statements go through
`F64.toRat`. -/
structure F64 where
  mant : ℤ
  exp : ℤ
deriving Repr, DecidableEq

/-- Exact rational value of a binary64 datum. -/
def F64.toRat (x : F64) : ℚ := (x.mant : ℚ) * zpow2 x.exp

/-- The binary64 value of a small natural number (exact for n < 2 ^ 53, which
covers every integer literal appearing in the sources). -/
def F64.ofNat (n : ℕ) : F64 := ⟨(n : ℤ), 0⟩

/-- Round a natural mantissa to at most 53 significant bits, to nearest, ties
to even; returns the rounded mantissa and the right shift that was applied. -/
def roundMant (n : ℕ) : ℕ × ℕ :=
  let b := natBits 999 n
  if b ≤ 53 then (n, 0)
  else
    let s := b - 53
    let k0 := n / 2 ^ s
    let r := n % 2 ^ s
    let k := if 2 * r < 2 ^ s then k0
             else if 2 ^ s < 2 * r then k0 + 1
             else if k0 % 2 = 0 then k0 else k0 + 1
    (k, s)

/-- Round the exact dyadic rational `m · 2 ^ e` to binary64. -/
def roundDyadic (m e : ℤ) : F64 :=
  if m < 0 then
    let p := roundMant (-m).toNat
    ⟨-(p.1 : ℤ), e + (p.2 : ℤ)⟩
  else
    let p := roundMant m.toNat
    ⟨(p.1 : ℤ), e + (p.2 : ℤ)⟩

/-- Binary64 multiplication: the exact product of the two dyadic values,
correctly rounded. -/
def F64.mul (x y : F64) : F64 := roundDyadic (x.mant * y.mant) (x.exp + y.exp)

/-- Binary64 value of the exact fraction n / d (n, d positive), to nearest,
ties to even.  This models the conversion of an exact untyped Go constant
expression to float64. -/
def f64DivNat (n d : ℕ) : F64 :=
  let c : ℤ := (natBits 999 n : ℤ) - (natBits 999 d : ℤ)
  let f : ℤ := if d * 2 ^ c.toNat ≤ n * 2 ^ (-c).toNat then c else c - 1
  let s : ℤ := 52 - f
  let bigN := n * 2 ^ s.toNat
  let bigD := d * 2 ^ (-s).toNat
  let k0 := bigN / bigD
  let r := bigN % bigD
  let k := if 2 * r < bigD then k0
           else if bigD < 2 * r then k0 + 1
           else if k0 % 2 = 0 then k0 else k0 + 1
  ⟨(k : ℤ), f - 52⟩

/-- The constant `(50000.0 / 3600.0)` of `EstimateRepairCost`
(repair-service/service/service.go line 368).  Go evaluates the untyped
constant division exactly and converts the result to float64 at use. -/
def conversionFactor : F64 := f64DivNat 50000 3600

/-- The statement `distance := duration * (50000.0 / 3600.0)` of
`EstimateRepairCost` (repair-service/service/service.go line 368):
one binary64 multiplication of the duration by the rounded constant. -/
def distanceOfDuration (duration : F64) : F64 := F64.mul duration conversionFactor


/-- Geographic coordinates (repair-service/domain/repair.go, type Location). -/
structure Location where
  longitude : ℚ
  latitude : ℚ
deriving Repr, DecidableEq

/-- Static mechanic reference data (repair-service/domain/repair.go, type
MechanicModel). -/
structure MechanicModel where
  id : String
  name : String
  location : Location
deriving Repr, DecidableEq

/-- A mechanic together with the computed distance from the user
(repair-service/domain/repair.go, type MechanicInfo).  The distance field is a
Go float64. -/
structure MechanicInfo where
  id : String
  name : String
  location : Location
  distance : F64
deriving Repr, DecidableEq

/-- Repair cost document (repair-service/domain/repair.go, type
RepairCostModel). -/
structure RepairCostModel where
  id : String
  userID : String
  repairType : String
  totalPrice : ℚ
  userLocation : Option Location
  mechanics : List MechanicInfo
deriving Repr, DecidableEq

/-- Repair document (repair-service/domain/repair.go, type RepairModel).  The
Go field is a pointer, hence the Option. -/
structure RepairModel where
  id : String
  userID : String
  status : String
  repairCost : Option RepairCostModel
deriving Repr, DecidableEq

/-- Decoded body of the OSRM table response
(repair-service/service/service.go lines 342-345): a code string and a
durations matrix of float64 values. -/
structure OsrmResponse where
  code : String
  durations : List (List F64)
deriving Repr, DecidableEq

/-- The error returns of EstimateRepairCost
(repair-service/service/service.go lines 256-358), named by the check that
produced them. -/
inductive EstimateErr where
  | invalidInput
  | unknownRepairType
  | mechanicsQueryFailed
  | osrmCallFailed
  | osrmBadCode
deriving Repr, DecidableEq

/-- Outcome of running a piece of Go code: a runtime panic, an error return,
or a value. -/
inductive GoResult (α : Type) where
  | panic : GoResult α
  | fail : EstimateErr → GoResult α
  | ok : α → GoResult α
deriving Repr, DecidableEq

/-- True exactly on the runtime-panic outcome. -/
def GoResult.isPanic {α : Type} : GoResult α → Bool
  | .panic => true
  | _ => false

/-- The switch on repairType of EstimateRepairCost
(repair-service/service/service.go lines 276-290): three known repair types
with fixed base prices, anything else is the error default. -/
def basePrice (repairType : String) : Option ℚ :=
  if repairType = "flat_tire" then some 50
  else if repairType = "brake_repair" then some 150
  else if repairType = "chain_replacement" then some 80
  else none

/-- Body of the per-mechanic loop of EstimateRepairCost
(repair-service/service/service.go lines 361-375), once the first row of the
durations matrix is in hand: mechanics whose duration entry is missing are
skipped, the others get distance = duration * (50000.0 / 3600.0). -/
def mechanicLoopGo (row : List F64) (i : ℕ) : List MechanicModel → List MechanicInfo
  | [] => []
  | m :: rest =>
    if row.length ≤ i + 1 then mechanicLoopGo row (i + 1) rest
    else
      ⟨m.id, m.name, m.location, distanceOfDuration (row.getD (i + 1) (F64.ofNat 0))⟩ ::
        mechanicLoopGo row (i + 1) rest

/-- The per-mechanic loop of EstimateRepairCost
(repair-service/service/service.go lines 362-375).  The loop guard on every
iteration evaluates `len(osrmResp.Durations[0])`; when the mechanics list is
non-empty and the durations matrix has no rows, that access is an
index-out-of-range runtime panic.  When the mechanics list is empty the loop
body never runs and nothing is indexed. -/
def mechanicLoop (mechanics : List MechanicModel) (durations : List (List F64)) :
    GoResult (List MechanicInfo) :=
  match mechanics with
  | [] => .ok []
  | _ :: _ =>
    match durations with
    | [] => .panic
    | row :: _ => .ok (mechanicLoopGo row 0 mechanics)

/-- One step of the insertion sort that Go's `sort.Slice` runs on slices of
fewer than twelve elements, with the comparator of
repair-service/service/service.go lines 379-381: strictly less on the
distance field only.  The new element is inserted after every element it is
not strictly smaller than, so elements with equal distance keep their
relative order. -/
def insertByDistance (x : MechanicInfo) : List MechanicInfo → List MechanicInfo
  | [] => [x]
  | y :: ys =>
    if x.distance.toRat < y.distance.toRat then x :: y :: ys
    else y :: insertByDistance x ys

/-- The `sort.Slice(mechanicInfos, ...)` call of EstimateRepairCost
(repair-service/service/service.go lines 378-381).  Go's sort.Slice runs
pdqsort, whose path for slices shorter than twelve elements (the seeded data
has three mechanics) is exactly this insertion sort; for longer slices the
order of elements that compare equal is unspecified.  The comparator looks
only at the distance field. -/
def sortByDistance (l : List MechanicInfo) : List MechanicInfo :=
  l.foldl (fun acc x => insertByDistance x acc) []

/-- Result of EstimateRepairCost together with whether the mechanics store
was queried (whether `GetAllMechanics` was reached). -/
structure EstimateOutcome where
  result : GoResult RepairCostModel
  queriedMechanics : Bool
deriving Repr, DecidableEq

/-- EstimateRepairCost (repair-service/service/service.go lines 256-396).
External effects are passed as oracles: `mechanicsReply` is the outcome of
`GetAllMechanics` (none = storage error), `osrmReply` is the decoded body of
the routing call (none = request creation, HTTP transport, non-200 status or
JSON decode failure).  The checks appear in source order: input validation,
the repairType switch, the mechanics query, the OSRM call, the `code == "Ok"`
check, the per-mechanic loop, the sort, and the cost record. -/
def estimateRepairCost (repairType userID : String) (userLocation : Option Location)
    (mechanicsReply : Option (List MechanicModel)) (osrmReply : Option OsrmResponse)
    (newCostID : String) : EstimateOutcome :=
  if repairType = "" ∨ userID = "" ∨ userLocation = none then
    ⟨.fail .invalidInput, false⟩
  else
    match basePrice repairType with
    | none => ⟨.fail .unknownRepairType, false⟩
    | some price =>
      match mechanicsReply with
      | none => ⟨.fail .mechanicsQueryFailed, true⟩
      | some mechanics =>
        match osrmReply with
        | none => ⟨.fail .osrmCallFailed, true⟩
        | some resp =>
          if resp.code ≠ "Ok" then ⟨.fail .osrmBadCode, true⟩
          else
            match mechanicLoop mechanics resp.durations with
            | .panic => ⟨.panic, true⟩
            | .fail e => ⟨.fail e, true⟩
            | .ok infos =>
              ⟨.ok ⟨newCostID, userID, repairType, price, userLocation,
                sortByDistance infos⟩, true⟩

/-- Elements of an insertion step are the inserted element or old elements. -/
lemma mem_insertByDistance (x z : MechanicInfo) :
    ∀ l : List MechanicInfo, z ∈ insertByDistance x l → z = x ∨ z ∈ l
  | [] => by simp [insertByDistance]
  | y :: ys => by
    unfold insertByDistance
    split
    · intro h
      rcases List.mem_cons.mp h with h1 | h2
      · exact Or.inl h1
      · exact Or.inr h2
    · intro h
      rcases List.mem_cons.mp h with h1 | h2
      · exact Or.inr (List.mem_cons.mpr (Or.inl h1))
      · rcases mem_insertByDistance x z ys h2 with h3 | h4
        · exact Or.inl h3
        · exact Or.inr (List.mem_cons.mpr (Or.inr h4))

/-- Inserting with the distance comparator preserves the non-strict distance
ordering. -/
lemma pairwise_insertByDistance (x : MechanicInfo) :
    ∀ l : List MechanicInfo,
      l.Pairwise (fun a b => a.distance.toRat ≤ b.distance.toRat) →
      (insertByDistance x l).Pairwise (fun a b => a.distance.toRat ≤ b.distance.toRat)
  | [], _ => by simp [insertByDistance]
  | y :: ys, h => by
    rw [List.pairwise_cons] at h
    obtain ⟨hy, hys⟩ := h
    unfold insertByDistance
    split
    case isTrue hlt =>
      rw [List.pairwise_cons]
      refine ⟨?_, List.pairwise_cons.mpr ⟨hy, hys⟩⟩
      intro z hz
      rcases List.mem_cons.mp hz with rfl | hzy
      · exact le_of_lt hlt
      · exact le_trans (le_of_lt hlt) (hy z hzy)
    case isFalse hge =>
      rw [List.pairwise_cons]
      refine ⟨?_, pairwise_insertByDistance x ys hys⟩
      intro z hz
      rcases mem_insertByDistance x z ys hz with rfl | hzy
      · exact le_of_not_lt hge
      · exact hy z hzy

/-- The insertion-sort fold keeps the accumulator ordered by distance. -/
lemma pairwise_foldl_insert :
    ∀ (l acc : List MechanicInfo),
      acc.Pairwise (fun a b => a.distance.toRat ≤ b.distance.toRat) →
      (l.foldl (fun acc x => insertByDistance x acc) acc).Pairwise
        (fun a b => a.distance.toRat ≤ b.distance.toRat)
  | [], _, h => h
  | x :: xs, acc, h => pairwise_foldl_insert xs _ (pairwise_insertByDistance x acc h)

/-- The sort of EstimateRepairCost leaves the mechanics ordered by
non-decreasing distance. -/
lemma sortByDistance_pairwise (l : List MechanicInfo) :
    (sortByDistance l).Pairwise (fun a b => a.distance.toRat ≤ b.distance.toRat) :=
  pairwise_foldl_insert l [] (by simp)

/-- The ordering the specification asserts for the mechanics sequence:
ascending by distance with ties broken by mechanic ID ascending. -/
def distThenIdSorted (l : List MechanicInfo) : Prop :=
  l.Pairwise (fun a b => a.distance.toRat < b.distance.toRat ∨
    (a.distance.toRat = b.distance.toRat ∧ a.id < b.id))

/-- Concrete mechanics-store reply with the IDs in descending order, used to
exercise the tie-breaking behaviour of the sort. -/
def c7Mechanics : List MechanicModel :=
  [⟨"m2", "City Garage", ⟨134/10, 5252/100⟩⟩,
   ⟨"m1", "Berlin Auto Repair", ⟨1342/100, 525/10⟩⟩]

/-- Concrete OSRM reply giving both mechanics the same duration. -/
def c7Osrm : OsrmResponse := ⟨"Ok", [[F64.ofNat 0, F64.ofNat 600, F64.ofNat 600]]⟩

/-- The estimate call on the tie input. -/
def c7Call : EstimateOutcome :=
  estimateRepairCost ("flat_tire") ("u1") (some ⟨134/10, 5252/100⟩)
    (some c7Mechanics) (some c7Osrm) ("c1")

/-- The cost record that the tie input produces: both mechanics at the same
distance, in store order, which is descending by ID. -/
def c7TieCost : RepairCostModel :=
  ⟨"c1", "u1", "flat_tire", 50, some ⟨134/10, 5252/100⟩,
   [⟨"m2", "City Garage", ⟨134/10, 5252/100⟩, distanceOfDuration (F64.ofNat 600)⟩,
    ⟨"m1", "Berlin Auto Repair", ⟨1342/100, 525/10⟩, distanceOfDuration (F64.ofNat 600)⟩]⟩

/-- Evaluation of the estimate pipeline on the tie input. -/
lemma c7Call_eval : c7Call.result = GoResult.ok c7TieCost := by
  simp [c7Call, c7TieCost, estimateRepairCost, basePrice, c7Mechanics, c7Osrm,
    mechanicLoop, mechanicLoopGo, sortByDistance, insertByDistance,
    List.foldl_cons, List.foldl_nil, List.getD_cons_zero, List.getD_cons_succ,
    lt_self_iff_false]

/-- C7: the claim that the mechanics sequence returned by EstimateRepairCost
breaks distance ties by mechanic ID ascending is false: on a routing reply
giving two mechanics the same duration, the comparator of
repair-service/service/service.go lines 379-381 compares only distances, so
the two mechanics stay in store order, here descending by ID. -/
theorem claimC7_counterexample :
    c7Call.result = GoResult.ok c7TieCost ∧ ¬ distThenIdSorted c7TieCost.mechanics := by
  refine ⟨c7Call_eval, ?_⟩
  intro hsort
  unfold distThenIdSorted c7TieCost at hsort
  rw [List.pairwise_cons] at hsort
  have hrel := hsort.1 _ (List.mem_cons_self _ _)
  rcases hrel with hlt | ⟨heq, hid⟩
  · exact absurd hlt (lt_irrefl _)
  · rw [String.lt_iff_toList_lt] at hid
    exact absurd hid (by decide)

/-- C7 amended: every successful result of EstimateRepairCost has its
mechanics sequence sorted by non-decreasing distance; the comparator has no
secondary key, so equal-distance mechanics keep the order in which the store
returned them rather than ID order. -/
theorem claimC7_amended_sorted_by_distance
    (repairType userID : String) (userLocation : Option Location)
    (mechanicsReply : Option (List MechanicModel)) (osrmReply : Option OsrmResponse)
    (newCostID : String) (cost : RepairCostModel)
    (h : (estimateRepairCost repairType userID userLocation mechanicsReply
        osrmReply newCostID).result = GoResult.ok cost) :
    cost.mechanics.Pairwise (fun a b => a.distance.toRat ≤ b.distance.toRat) := by
  unfold estimateRepairCost at h
  split at h
  · simp at h
  · split at h
    · simp at h
    · split at h
      · simp at h
      · split at h
        · simp at h
        · split at h
          · simp at h
          · split at h
            · simp at h
            · simp at h
            · simp only [GoResult.ok.injEq] at h
              subst h
              exact sortByDistance_pairwise _

/-- C7 amended, witnessed on the tie input: the returned mechanics are sorted
by non-decreasing distance. -/
theorem claimC7_amended_witness :
    c7Call.result = GoResult.ok c7TieCost ∧
    c7TieCost.mechanics.Pairwise (fun a b => a.distance.toRat ≤ b.distance.toRat) :=
  ⟨c7Call_eval,
   claimC7_amended_sorted_by_distance ("flat_tire") ("u1") (some ⟨134/10, 5252/100⟩)
     (some c7Mechanics) (some c7Osrm) ("c1") c7TieCost c7Call_eval⟩

/-- C8: the duration-to-distance conversion of EstimateRepairCost is one
binary64 multiplication of the duration by the rounded constant
50000.0 / 3600.0, and a duration of exactly 3600 seconds yields a distance of
exactly 50000 metres. -/
theorem claimC8_duration_conversion :
    distanceOfDuration = (fun d => F64.mul d (f64DivNat 50000 3600)) ∧
    (distanceOfDuration (F64.ofNat 3600)).toRat = 50000 := by
  refine ⟨rfl, ?_⟩
  have h : distanceOfDuration (F64.ofNat 3600) = ⟨6871947673600000, -37⟩ := by decide
  rw [h]
  have h2 : Int.toNat 37 = 37 := rfl
  norm_num [F64.toRat, zpow2, h2]

/-- C9: a repairType outside the three known values makes EstimateRepairCost
return an error before the mechanics store is queried, and the three known
base prices are exactly 50, 150 and 80. -/
theorem claimC9_unknown_type_rejected_before_store
    (repairType userID : String) (userLocation : Option Location)
    (mechanicsReply : Option (List MechanicModel)) (osrmReply : Option OsrmResponse)
    (newCostID : String)
    (h : repairType ≠ "flat_tire" ∧ repairType ≠ "brake_repair" ∧
      repairType ≠ "chain_replacement") :
    ((estimateRepairCost repairType userID userLocation mechanicsReply osrmReply
        newCostID).queriedMechanics = false ∧
      ∃ e, (estimateRepairCost repairType userID userLocation mechanicsReply osrmReply
        newCostID).result = GoResult.fail e) ∧
    basePrice ("flat_tire") = some 50 ∧ basePrice ("brake_repair") = some 150 ∧
    basePrice ("chain_replacement") = some 80 := by
  refine ⟨?_, rfl, rfl, rfl⟩
  have hb : basePrice repairType = none := by
    simp [basePrice, h.1, h.2.1, h.2.2]
  by_cases hv : repairType = "" ∨ userID = "" ∨ userLocation = none
  · exact ⟨by simp [estimateRepairCost, hv], ⟨.invalidInput, by simp [estimateRepairCost, hv]⟩⟩
  · exact ⟨by simp [estimateRepairCost, hv, hb], ⟨.unknownRepairType, by simp [estimateRepairCost, hv, hb]⟩⟩

/-- C9 witnessed at the unknown repair type oil_change. -/
theorem claimC9_witness :
    (("oil_change" : String) ≠ "flat_tire" ∧ ("oil_change" : String) ≠ "brake_repair" ∧
      ("oil_change" : String) ≠ "chain_replacement") ∧
    ((estimateRepairCost ("oil_change") ("u1") (some ⟨0, 0⟩) none none
        ("c1")).queriedMechanics = false ∧
      ∃ e, (estimateRepairCost ("oil_change") ("u1") (some ⟨0, 0⟩) none none
        ("c1")).result = GoResult.fail e) ∧
    basePrice ("flat_tire") = some 50 ∧ basePrice ("brake_repair") = some 150 ∧
    basePrice ("chain_replacement") = some 80 :=
  ⟨by decide,
   (claimC9_unknown_type_rejected_before_store ("oil_change") ("u1") (some ⟨0, 0⟩)
     none none ("c1") (by decide)).1,
   rfl, rfl, rfl⟩

/-- C10: the claim that the per-mechanic loop of EstimateRepairCost indexes
the durations matrix only in bounds is false: on a well-typed Ok routing
response whose durations matrix has no rows and a one-mechanic store reply,
the access `osrmResp.Durations[0]` in the loop guard
(repair-service/service/service.go line 363) is an index-out-of-range runtime
panic. -/
theorem claimC10_counterexample :
    (estimateRepairCost ("flat_tire") ("u1") (some ⟨0, 0⟩)
      (some [⟨"m1", "Berlin Auto Repair", ⟨0, 0⟩⟩])
      (some ⟨"Ok", []⟩) ("c1")).result = GoResult.panic := by
  rfl

/-- C10 amended: whenever the durations matrix of an Ok routing response has
at least one row, EstimateRepairCost never panics on the durations access, for
every mechanics reply. -/
theorem claimC10_amended_nonempty_matrix_no_panic
    (repairType userID : String) (userLocation : Option Location)
    (mechanicsReply : Option (List MechanicModel)) (code : String)
    (row : List F64) (rest : List (List F64)) (newCostID : String) :
    ((estimateRepairCost repairType userID userLocation mechanicsReply
        (some ⟨code, row :: rest⟩) newCostID).result).isPanic = false := by
  by_cases hv : repairType = "" ∨ userID = "" ∨ userLocation = none
  · simp [estimateRepairCost, hv, GoResult.isPanic]
  · cases hb : basePrice repairType with
    | none => simp [estimateRepairCost, hv, hb, GoResult.isPanic]
    | some price =>
      cases mechanicsReply with
      | none => simp [estimateRepairCost, hv, hb, GoResult.isPanic]
      | some mechanics =>
        by_cases hc : code ≠ "Ok"
        · simp [estimateRepairCost, hv, hb, hc, GoResult.isPanic]
        · cases mechanics with
          | nil => simp [estimateRepairCost, hv, hb, hc, mechanicLoop, GoResult.isPanic]
          | cons m ms =>
            simp [estimateRepairCost, hv, hb, hc, mechanicLoop, GoResult.isPanic]

/-- Avro event record (kafka.RepairEvent,
repair-service/kafka/producer.go lines 22-42). -/
structure RepairEvent where
  id : String
  userID : String
  status : String
  repairType : String
  totalPrice : ℚ
  userLocation : Option Location
  mechanics : List MechanicInfo
deriving Repr, DecidableEq

/-- The schema-registry wire envelope built in CreateRepair
(repair-service/service/service.go lines 188-191): magic byte 0, the
producer's four-byte big-endian schema ID, then the Avro-encoded record. -/
structure EncodedPayload where
  magic : ℕ
  schemaID : ℕ
  body : RepairEvent
deriving Repr, DecidableEq

/-- Outbox document (repair-service/domain/repair.go, type OutboxEvent; the
mechanic side uses the same shape). -/
structure OutboxEvent where
  id : String
  eventType : String
  payload : EncodedPayload
  createdAt : ℕ
  processed : Bool
  processedAt : Option ℕ
deriving Repr, DecidableEq

/-- Conversion of a repair and its cost to the event record
(repair-service/service/service.go lines 139-162). -/
def repairEventOf (repair : RepairModel) (cost : RepairCostModel) : RepairEvent :=
  ⟨repair.id, repair.userID, repair.status, cost.repairType, cost.totalPrice,
   cost.userLocation, cost.mechanics⟩

/-- The repair-side document store: the repairs, repair_costs and outbox
collections touched by CreateRepair. -/
structure RepairDB where
  repairs : List RepairModel
  costs : List RepairCostModel
  outbox : List OutboxEvent
deriving Repr, DecidableEq

/-- Error kinds CreateRepair can return. -/
inductive CreateErr where
  | invalidInput
  | encodeFailure
  | storageFailure
deriving Repr, DecidableEq

/-- Failure oracle for one CreateRepair call: which of the fallible operations
fails when it is attempted. -/
structure CreateFailures where
  schemaFail : Bool
  sessionFail : Bool
  startTxFail : Bool
  saveCostFail : Bool
  createRepairFail : Bool
  saveOutboxFail : Bool
  commitFail : Bool
deriving Repr, DecidableEq

/-- CreateRepair (repair-service/service/service.go lines 113-253).  Checks in
source order: input validation; building the pending repair and its encoded
event (schema read, parse and marshal collapsed into schemaFail); starting the
session and transaction; inside mongo.WithSession the three inserts
SaveRepairCost, CreateRepair, SaveOutboxEvent; then CommitTransaction.  Writes
staged inside the session become visible only at a successful commit, so every
failing branch leaves the store untouched and the success branch appends all
three documents at once. -/
def createRepair (db : RepairDB) (cost : RepairCostModel) (newRepairID newEventID : String)
    (schemaID now : ℕ) (f : CreateFailures) : Except CreateErr RepairModel × RepairDB :=
  if cost.userID = "" ∨ cost.repairType = "" ∨ cost.totalPrice ≤ 0 then
    (.error .invalidInput, db)
  else
    let repair : RepairModel := ⟨newRepairID, cost.userID, "pending", some cost⟩
    if f.schemaFail then (.error .encodeFailure, db)
    else
      let payload : EncodedPayload := ⟨0, schemaID, repairEventOf repair cost⟩
      if f.sessionFail then (.error .storageFailure, db)
      else if f.startTxFail then (.error .storageFailure, db)
      else if f.saveCostFail then (.error .storageFailure, db)
      else if f.createRepairFail then (.error .storageFailure, db)
      else if f.saveOutboxFail then (.error .storageFailure, db)
      else if f.commitFail then (.error .storageFailure, db)
      else
        (.ok repair,
         ⟨db.repairs ++ [repair], db.costs ++ [cost],
          db.outbox ++ [⟨newEventID, "RepairCreated", payload, now, false, none⟩]⟩)

/-- State seen by the repair-side dispatcher: the outbox collection and the
sequence of payloads the broker has acknowledged. -/
structure DispatchState where
  outbox : List OutboxEvent
  broker : List EncodedPayload
deriving Repr, DecidableEq

/-- MarkOutboxEventProcessed (repair-service/domain/repository.go lines
276-296): UpdateOne on _id sets processed=true and processed_at=now on the
single matching row. -/
def markProcessed (rows : List OutboxEvent) (eventID : String) (now : ℕ) :
    List OutboxEvent :=
  match rows with
  | [] => []
  | r :: rest =>
    if r.id = eventID then { r with processed := true, processedAt := some now } :: rest
    else r :: markProcessed rest eventID now

/-- Handling of one unprocessed row inside the dispatcher loop
(repair-service/kafka/producer.go lines 251-266 with PublishOutboxEvent of
the same package): Produce and the blocking delivery report are one fallible
publish; on publish failure the loop continues and the row is untouched; on
success the broker has acknowledged the payload and only then is the row
marked, itself fallibly. -/
def dispatchStep (pubOk markOk : String → Bool) (now : ℕ) (acc : DispatchState)
    (e : OutboxEvent) : DispatchState :=
  if pubOk e.id then
    if markOk e.id then
      ⟨markProcessed acc.outbox e.id now, acc.broker ++ [e.payload]⟩
    else ⟨acc.outbox, acc.broker ++ [e.payload]⟩
  else acc

/-- One dispatcher tick (repair-service/kafka/producer.go lines 237-272):
GetUnprocessedOutboxEvents selects the rows with processed=false, then each is
published and marked in order. -/
def processTick (st : DispatchState) (pubOk markOk : String → Bool) (now : ℕ) :
    DispatchState :=
  (st.outbox.filter (fun e => !e.processed)).foldl (dispatchStep pubOk markOk now) st

/-- C1: with a valid cost, a successful CreateRepair appends the cost row, the
repair row and exactly one RepairCreated outbox event in one atomic commit,
and a failure of any of the three inserts (once the transaction is under way)
returns a storage error with none of the three documents persisted. -/
theorem claimC1_create_repair_transactional
    (db : RepairDB) (cost : RepairCostModel) (newRepairID newEventID : String)
    (schemaID now : ℕ) (f : CreateFailures)
    (hvalid : ¬ (cost.userID = "" ∨ cost.repairType = "" ∨ cost.totalPrice ≤ 0)) :
    (∀ r, (createRepair db cost newRepairID newEventID schemaID now f).1 = .ok r →
      (createRepair db cost newRepairID newEventID schemaID now f).2 =
        ⟨db.repairs ++ [r], db.costs ++ [cost],
         db.outbox ++ [⟨newEventID, "RepairCreated", ⟨0, schemaID, repairEventOf r cost⟩,
           now, false, none⟩]⟩ ∧
      r = ⟨newRepairID, cost.userID, "pending", some cost⟩) ∧
    ((¬ f.schemaFail ∧ ¬ f.sessionFail ∧ ¬ f.startTxFail ∧
        (f.saveCostFail ∨ f.createRepairFail ∨ f.saveOutboxFail)) →
      (createRepair db cost newRepairID newEventID schemaID now f).1 =
        .error CreateErr.storageFailure ∧
      (createRepair db cost newRepairID newEventID schemaID now f).2 = db) := by
  unfold createRepair
  rw [if_neg hvalid]
  by_cases h1 : f.schemaFail
  · simp [h1]
  · rw [if_neg h1]
    by_cases h2 : f.sessionFail
    · simp [h2]
    · by_cases h3 : f.startTxFail
      · simp [h2, h3]
      · by_cases h4 : f.saveCostFail
        · simp [h2, h3, h4]
        · by_cases h5 : f.createRepairFail
          · simp [h2, h3, h4, h5]
          · by_cases h6 : f.saveOutboxFail
            · simp [h2, h3, h4, h5, h6]
            · by_cases h7 : f.commitFail
              · simp [h2, h3, h4, h5, h6, h7]
              · constructor
                · intro r hr
                  simp [h2, h3, h4, h5, h6, h7] at hr
                  subst hr
                  simp [h2, h3, h4, h5, h6, h7]
                · intro hc
                  exact absurd hc (by simp [h4, h5, h6])

/-- C1 witnessed: a concrete valid cost with no failing operation persists the
three documents together. -/
theorem claimC1_witness :
    (¬ ((⟨"c1", "u1", "flat_tire", 50, none, []⟩ : RepairCostModel).userID = "" ∨
        (⟨"c1", "u1", "flat_tire", 50, none, []⟩ : RepairCostModel).repairType = "" ∨
        (⟨"c1", "u1", "flat_tire", 50, none, []⟩ : RepairCostModel).totalPrice ≤ 0)) ∧
    (∀ r, (createRepair ⟨[], [], []⟩ ⟨"c1", "u1", "flat_tire", 50, none, []⟩
        ("r1") ("e1") 7 3 ⟨false, false, false, false, false, false, false⟩).1 = .ok r →
      (createRepair ⟨[], [], []⟩ ⟨"c1", "u1", "flat_tire", 50, none, []⟩
        ("r1") ("e1") 7 3 ⟨false, false, false, false, false, false, false⟩).2 =
        ⟨[] ++ [r], [] ++ [⟨"c1", "u1", "flat_tire", 50, none, []⟩],
         [] ++ [⟨"e1", "RepairCreated",
           ⟨0, 7, repairEventOf r ⟨"c1", "u1", "flat_tire", 50, none, []⟩⟩, 3, false, none⟩]⟩ ∧
      r = ⟨"r1", "u1", "pending", some ⟨"c1", "u1", "flat_tire", 50, none, []⟩⟩) :=
  ⟨by push_neg; refine ⟨by decide, by decide, by norm_num⟩,
   (claimC1_create_repair_transactional ⟨[], [], []⟩ ⟨"c1", "u1", "flat_tire", 50, none, []⟩
     ("r1") ("e1") 7 3 ⟨false, false, false, false, false, false, false⟩
     (by push_neg; refine ⟨by decide, by decide, by norm_num⟩)).1⟩

/-- MarkOutboxEventProcessed changes neither ids nor payloads. -/
lemma markProcessed_map_idPayload (eventID : String) (now : ℕ) :
    ∀ rows : List OutboxEvent,
      (markProcessed rows eventID now).map (fun r => (r.id, r.payload)) =
        rows.map (fun r => (r.id, r.payload))
  | [] => rfl
  | r :: rest => by
    unfold markProcessed
    split
    · simp
    · simp [markProcessed_map_idPayload eventID now rest]

/-- A row after MarkOutboxEventProcessed is an old row, or the matching row
with its processed flag and stamp set. -/
lemma markProcessed_cases (eventID : String) (now : ℕ) :
    ∀ rows : List OutboxEvent, ∀ r2 ∈ markProcessed rows eventID now,
      r2 ∈ rows ∨ ∃ r0, r0 ∈ rows ∧ r0.id = eventID ∧
        r2 = { r0 with processed := true, processedAt := some now }
  | [] => by simp [markProcessed]
  | r :: rest => by
    unfold markProcessed
    split
    case isTrue hid =>
      intro r2 hr2
      rcases List.mem_cons.mp hr2 with rfl | h2
      · exact Or.inr ⟨r, List.mem_cons_self r rest, hid, rfl⟩
      · exact Or.inl (List.mem_cons.mpr (Or.inr h2))
    case isFalse hid =>
      intro r2 hr2
      rcases List.mem_cons.mp hr2 with rfl | h2
      · exact Or.inl (List.mem_cons_self r2 rest)
      · rcases markProcessed_cases eventID now rest r2 h2 with h3 | ⟨r0, h4, h5, h6⟩
        · exact Or.inl (List.mem_cons.mpr (Or.inr h3))
        · exact Or.inr ⟨r0, List.mem_cons.mpr (Or.inr h4), h5, h6⟩

/-- Invariant carried through one dispatcher tick: a processed row has its
payload acknowledged by the broker and its stamp set; ids and payloads of the
rows never change; a row is processed only if it already was or its publish
succeeded in this tick. -/
def TickInv (orig : List OutboxEvent) (pubOk : String → Bool) (st : DispatchState) : Prop :=
  (∀ r ∈ st.outbox, r.processed = true →
    r.payload ∈ st.broker ∧ r.processedAt.isSome = true) ∧
  (∀ r ∈ st.outbox, ∃ r0, r0 ∈ orig ∧ r0.id = r.id ∧ r0.payload = r.payload) ∧
  (∀ r ∈ st.outbox, r.processed = true →
    ∃ r0, r0 ∈ orig ∧ r0.id = r.id ∧ (r0.processed = true ∨ pubOk r0.id = true))

/-- One dispatcher row-handling step preserves the tick invariant, because the
row is marked only inside the branch where its publish was acknowledged. -/
lemma dispatchStep_inv (orig : List OutboxEvent) (pubOk markOk : String → Bool)
    (now : ℕ) (hnd : (orig.map (fun r => r.id)).Nodup)
    (st : DispatchState) (e : OutboxEvent) (he : e ∈ orig)
    (hinv : TickInv orig pubOk st) :
    TickInv orig pubOk (dispatchStep pubOk markOk now st e) := by
  obtain ⟨inv1, inv2, inv3⟩ := hinv
  unfold dispatchStep
  by_cases hpub : pubOk e.id = true
  case neg =>
    rw [if_neg hpub]
    exact ⟨inv1, inv2, inv3⟩
  case pos =>
    rw [if_pos hpub]
    by_cases hmark : markOk e.id = true
    case neg =>
      rw [if_neg hmark]
      refine ⟨?_, inv2, inv3⟩
      intro r hr hp
      obtain ⟨hb, hs⟩ := inv1 r hr hp
      exact ⟨List.mem_append_left _ hb, hs⟩
    case pos =>
      rw [if_pos hmark]
      have hsame : ∀ r ∈ st.outbox, r.id = e.id → r.payload = e.payload := by
        intro r hr hid
        obtain ⟨r0, h0, hid0, hpay0⟩ := inv2 r hr
        have he0 : r0 = e := by
          refine List.inj_on_of_nodup_map hnd h0 he ?_
          rw [hid0, hid]
        rw [← hpay0, he0]
      refine ⟨?_, ?_, ?_⟩
      · intro r2 hr2 hp2
        rcases markProcessed_cases e.id now st.outbox r2 hr2 with hold | ⟨r0, h0, hid0, rfl⟩
        · obtain ⟨hb, hs⟩ := inv1 r2 hold hp2
          exact ⟨List.mem_append_left _ hb, hs⟩
        · refine ⟨?_, rfl⟩
          have hpay : r0.payload = e.payload := hsame r0 h0 hid0
          show r0.payload ∈ st.broker ++ [e.payload]
          rw [hpay]
          exact List.mem_append_right _ (List.mem_singleton.mpr rfl)
      · intro r2 hr2
        have hmem : (r2.id, r2.payload) ∈ st.outbox.map (fun r => (r.id, r.payload)) := by
          rw [← markProcessed_map_idPayload e.id now st.outbox]
          exact List.mem_map_of_mem _ hr2
        obtain ⟨r1, hr1, hpair⟩ := List.mem_map.mp hmem
        obtain ⟨r0, h0, hid0, hpay0⟩ := inv2 r1 hr1
        have hid1 : r1.id = r2.id := congrArg Prod.fst hpair
        have hpay1 : r1.payload = r2.payload := congrArg Prod.snd hpair
        exact ⟨r0, h0, by rw [hid0, hid1], by rw [hpay0, hpay1]⟩
      · intro r2 hr2 hp2
        rcases markProcessed_cases e.id now st.outbox r2 hr2 with hold | ⟨r0, h0, hid0, rfl⟩
        · exact inv3 r2 hold hp2
        · obtain ⟨r00, h00, hid00, _⟩ := inv2 r0 h0
          refine ⟨r00, h00, hid00, Or.inr ?_⟩
          rw [hid00, hid0]
          exact hpub

/-- The dispatcher fold preserves the tick invariant. -/
lemma foldl_dispatchStep_inv (orig : List OutboxEvent) (pubOk markOk : String → Bool)
    (now : ℕ) (hnd : (orig.map (fun r => r.id)).Nodup) :
    ∀ (events : List OutboxEvent) (st : DispatchState),
      (∀ e ∈ events, e ∈ orig) → TickInv orig pubOk st →
      TickInv orig pubOk (events.foldl (dispatchStep pubOk markOk now) st)
  | [], _, _, hinv => hinv
  | e :: es, st, hall, hinv => by
    rw [List.foldl_cons]
    exact foldl_dispatchStep_inv orig pubOk markOk now hnd es _
      (fun x hx => hall x (List.mem_cons.mpr (Or.inr hx)))
      (dispatchStep_inv orig pubOk markOk now hnd st e (hall e (List.mem_cons_self e es)) hinv)

/-- C2: over one dispatcher tick from a state whose processed rows all carry
broker-acknowledged payloads, every row that ends processed has a
broker-acknowledged payload and a processedAt stamp, a row ends processed only
if it already was or its publish was acknowledged this tick, and when no
publish succeeds the tick changes nothing, so failed rows remain selected by
the next tick's processed=false query. -/
theorem claimC2_processed_only_after_broker_ack
    (st : DispatchState) (pubOk markOk : String → Bool) (now : ℕ)
    (hnd : (st.outbox.map (fun r => r.id)).Nodup)
    (hinv : ∀ r ∈ st.outbox, r.processed = true →
      r.payload ∈ st.broker ∧ r.processedAt.isSome = true) :
    (∀ r ∈ (processTick st pubOk markOk now).outbox, r.processed = true →
      r.payload ∈ (processTick st pubOk markOk now).broker ∧
      r.processedAt.isSome = true) ∧
    (∀ r ∈ (processTick st pubOk markOk now).outbox, r.processed = true →
      ∃ r0, r0 ∈ st.outbox ∧ r0.id = r.id ∧
        (r0.processed = true ∨ pubOk r0.id = true)) ∧
    ((∀ eid, pubOk eid = false) → processTick st pubOk markOk now = st) := by
  have hstart : TickInv st.outbox pubOk st :=
    ⟨hinv, fun r hr => ⟨r, hr, rfl, rfl⟩, fun r hr hp => ⟨r, hr, rfl, Or.inl hp⟩⟩
  have hfold := foldl_dispatchStep_inv st.outbox pubOk markOk now hnd
    (st.outbox.filter (fun e => !e.processed)) st
    (fun e he => List.mem_of_mem_filter he) hstart
  refine ⟨hfold.1, hfold.2.2, ?_⟩
  intro hfail
  unfold processTick
  have hconst : ∀ (events : List OutboxEvent) (acc : DispatchState),
      events.foldl (dispatchStep pubOk markOk now) acc = acc := by
    intro events
    induction events with
    | nil => intro acc; rfl
    | cons e es ih =>
      intro acc
      rw [List.foldl_cons,
        show dispatchStep pubOk markOk now acc e = acc from by
          unfold dispatchStep; rw [if_neg (by simp [hfail])]]
      exact ih acc
  exact hconst _ st

/-- Concrete payload for the dispatcher witness. -/
def c2Payload : EncodedPayload := ⟨0, 7, ⟨"r1", "u1", "pending", "flat_tire", 50, none, []⟩⟩

/-- Concrete dispatcher state with one unprocessed row and an empty broker. -/
def c2State : DispatchState := ⟨[⟨"e1", "RepairCreated", c2Payload, 0, false, none⟩], []⟩

/-- C2 witnessed on a one-row state with successful publish and mark. -/
theorem claimC2_witness :
    ((c2State.outbox.map (fun r => r.id)).Nodup) ∧
    (∀ r ∈ c2State.outbox, r.processed = true →
      r.payload ∈ c2State.broker ∧ r.processedAt.isSome = true) ∧
    (∀ r ∈ (processTick c2State (fun _ => true) (fun _ => true) 5).outbox,
      r.processed = true →
      r.payload ∈ (processTick c2State (fun _ => true) (fun _ => true) 5).broker ∧
      r.processedAt.isSome = true) :=
  ⟨by simp [c2State],
   by simp [c2State],
   (claimC2_processed_only_after_broker_ack c2State (fun _ => true) (fun _ => true) 5
     (by simp [c2State]) (by simp [c2State])).1⟩

/-- Kafka consumer configuration fields set by NewConsumer
(mechanic-service/kafka/consumer.go lines 54-59). -/
structure ConsumerConfig where
  bootstrapServers : String
  groupID : String
  autoOffsetReset : String
  enableAutoCommit : Bool
deriving Repr, DecidableEq

/-- The ConfigMap literal of NewConsumer (mechanic-service/kafka/consumer.go
lines 54-59): auto.offset.reset is earliest and enable.auto.commit is true. -/
def newConsumerConfig (bootstrapServers groupID : String) : ConsumerConfig :=
  ⟨bootstrapServers, groupID, "earliest", true⟩

/-- The mechanic-side document store: the repairs collection and the
mechanic_outbox collection. -/
structure MechDB where
  repairs : List RepairModel
  moutbox : List OutboxEvent
deriving Repr, DecidableEq

/-- Translation of a decoded event to the mechanic-side repair document
(mechanic-service/service/service.go lines 115-149; the applier translates
identically): the embedded cost reuses the event ID. -/
def repairOfEvent (ev : RepairEvent) : RepairModel :=
  ⟨ev.id, ev.userID, ev.status,
   some ⟨ev.id, ev.userID, ev.repairType, ev.totalPrice, ev.userLocation, ev.mechanics⟩⟩

/-- processRepairEvent, the callback the consumer's Start loop runs on each
decoded message (mechanic-service/service/service.go lines 98-178): scan all
repairs with GetAllRepairs, skip if one already has the event's ID, otherwise
InsertOne directly into the repairs collection — no session, and the
mechanic_outbox collection is never touched.  fetchOk and insertOk model the
two fallible store calls; on a failure nothing is written. -/
def processRepairEvent (db : MechDB) (ev : RepairEvent) (fetchOk insertOk : Bool) :
    MechDB :=
  if ¬ fetchOk then db
  else if db.repairs.any (fun r => r.id == ev.id) then db
  else if insertOk then { db with repairs := db.repairs ++ [repairOfEvent ev] } else db

/-- One applier transaction on one outbox row (the mechanic-side
OutboxProcessor.processOutboxEvents transaction body): inside the session,
CheckRepairExists on the event ID; when the repair exists the closure returns
nil immediately — without calling MarkOutboxEventProcessed — and the commit
changes nothing; otherwise InsertRepair and MarkOutboxEventProcessed are both
applied atomically at commit.  txOk false models a session, start, closure or
commit failure: nothing is applied. -/
def applyOutboxRow (db : MechDB) (row : OutboxEvent) (txOk : Bool) (now : ℕ) : MechDB :=
  if ¬ txOk then db
  else if db.repairs.any (fun r => r.id == (repairOfEvent row.payload.body).id) then db
  else { repairs := db.repairs ++ [repairOfEvent row.payload.body],
         moutbox := markProcessed db.moutbox row.id now }

/-- One event-application step on the mechanic store: either the consumer
callback or one applier transaction. -/
inductive MechStep where
  | consumer (ev : RepairEvent) (fetchOk insertOk : Bool)
  | applier (row : OutboxEvent) (txOk : Bool) (now : ℕ)

/-- Run one mechanic-side step. -/
def mechStep (db : MechDB) : MechStep → MechDB
  | .consumer ev fetchOk insertOk => processRepairEvent db ev fetchOk insertOk
  | .applier row txOk now => applyOutboxRow db row txOk now

/-- At most one repairs row per ID. -/
def atMostOnePerId (repairs : List RepairModel) : Prop :=
  ∀ i : String, repairs.countP (fun r => r.id == i) ≤ 1

/-- Appending a repair whose ID is absent keeps at most one row per ID. -/
lemma atMostOne_append (repairs : List RepairModel) (x : RepairModel)
    (h : atMostOnePerId repairs)
    (hx : repairs.any (fun r => r.id == x.id) = false) :
    atMostOnePerId (repairs ++ [x]) := by
  intro i
  rw [List.countP_append]
  by_cases hi : x.id = i
  · have h0 : repairs.countP (fun r => r.id == i) = 0 := by
      rw [List.countP_eq_zero]
      intro r hr hri
      have hall := List.any_eq_false.mp hx r hr
      rw [beq_iff_eq] at hri hall
      exact hall (by rw [hri, hi])
    rw [h0]
    have : List.countP (fun r => r.id == i) [x] ≤ 1 := by
      simp [List.countP_cons, hi]
    omega
  · have : List.countP (fun r => r.id == i) [x] = 0 := by
      simp [List.countP_cons, hi]
    rw [this]
    have := h i
    omega

/-- A Bool that is not true is false. -/
lemma boolNotTrue {b : Bool} (h : ¬ b = true) : b = false := by
  cases b
  · rfl
  · exact absurd rfl h

/-- Each mechanic-side step inserts a repair only after finding no row with
its ID, so it keeps at most one row per ID. -/
lemma mechStep_atMostOne (db : MechDB) (s : MechStep) (h : atMostOnePerId db.repairs) :
    atMostOnePerId (mechStep db s).repairs := by
  cases s with
  | consumer ev fetchOk insertOk =>
    show atMostOnePerId (processRepairEvent db ev fetchOk insertOk).repairs
    unfold processRepairEvent
    split
    · exact h
    · split
      · exact h
      · split
        · exact atMostOne_append db.repairs (repairOfEvent ev) h
            (boolNotTrue (by assumption))
        · exact h
  | applier row txOk now =>
    show atMostOnePerId (applyOutboxRow db row txOk now).repairs
    unfold applyOutboxRow
    split
    · exact h
    · split
      · exact h
      · exact atMostOne_append db.repairs (repairOfEvent row.payload.body) h
          (boolNotTrue (by assumption))

/-- C3: the claim that the mechanic consumer lands messages in mechanic_outbox
under a transaction with auto-commit disabled is false on the configuration
point: NewConsumer (mechanic-service/kafka/consumer.go line 58) sets
enable.auto.commit to true. -/
theorem claimC3_counterexample :
    (newConsumerConfig ("kafka:9094") ("mechanic-service-group")).enableAutoCommit = true :=
  rfl

/-- C3 amended: the consumer group is configured with auto-commit enabled
(offset reset earliest), and the consumer's processing callback writes the
decoded event directly into the repairs collection, never into
mechanic_outbox, so offsets can be committed independently of the local
insert. -/
theorem claimC3_amended_auto_commit_and_direct_insert :
    (∀ bootstrapServers groupID : String,
      (newConsumerConfig bootstrapServers groupID).enableAutoCommit = true ∧
      (newConsumerConfig bootstrapServers groupID).autoOffsetReset = "earliest") ∧
    (∀ (db : MechDB) (ev : RepairEvent) (fetchOk insertOk : Bool),
      (processRepairEvent db ev fetchOk insertOk).moutbox = db.moutbox) := by
  refine ⟨fun _ _ => ⟨rfl, rfl⟩, ?_⟩
  intro db ev fetchOk insertOk
  unfold processRepairEvent
  split
  · rfl
  · split
    · rfl
    · split
      · rfl
      · rfl

/-- Concrete event for the applier scenarios. -/
def c4Event : RepairEvent := ⟨"r1", "u1", "pending", "flat_tire", 50, none, []⟩

/-- Concrete mechanic_outbox row carrying that event, unprocessed. -/
def c4Row : OutboxEvent := ⟨"e1", "RepairEvent", ⟨0, 7, c4Event⟩, 0, false, none⟩

/-- Concrete mechanic store in which the repair already exists and the outbox
row is unprocessed. -/
def c4DB : MechDB := ⟨[repairOfEvent c4Event], [c4Row]⟩

/-- C4: the claim that the applier flips the outbox row to processed exactly
once also in the branch where the repairs row already exists is false: in that
branch the transaction closure returns before MarkOutboxEventProcessed, so the
row stays processed=false (and is re-selected on every later tick). -/
theorem claimC4_counterexample :
    applyOutboxRow c4DB c4Row true 7 = c4DB ∧
    ∀ r ∈ (applyOutboxRow c4DB c4Row true 7).moutbox, r.processed = false := by
  refine ⟨rfl, ?_⟩
  intro r hr
  have he : applyOutboxRow c4DB c4Row true 7 = c4DB := rfl
  rw [he] at hr
  have : r = c4Row := by simpa [c4DB] using hr
  rw [this]
  rfl

/-- C4 amended: re-running the applier on the same row yields the same repairs
state; in the branch where the repair is newly inserted the row is marked
processed exactly once and a re-run changes nothing; in the branch where the
repairs row already exists the store is unchanged and the row is never
marked. -/
theorem claimC4_amended_applier_idempotent
    (db : MechDB) (row : OutboxEvent) (now now2 : ℕ) :
    (applyOutboxRow (applyOutboxRow db row true now) row true now2).repairs =
      (applyOutboxRow db row true now).repairs ∧
    (db.repairs.any (fun r => r.id == (repairOfEvent row.payload.body).id) = true →
      applyOutboxRow db row true now = db) ∧
    (db.repairs.any (fun r => r.id == (repairOfEvent row.payload.body).id) = false →
      (applyOutboxRow db row true now).repairs =
        db.repairs ++ [repairOfEvent row.payload.body] ∧
      (applyOutboxRow db row true now).moutbox = markProcessed db.moutbox row.id now ∧
      applyOutboxRow (applyOutboxRow db row true now) row true now2 =
        applyOutboxRow db row true now) := by
  by_cases hany : db.repairs.any (fun r => r.id == (repairOfEvent row.payload.body).id) = true
  · have h1 : applyOutboxRow db row true now = db := by
      simp [applyOutboxRow, hany]
    have h1b : applyOutboxRow db row true now2 = db := by
      simp [applyOutboxRow, hany]
    refine ⟨?_, fun _ => h1, fun hf => absurd hany (by simp [hf])⟩
    rw [h1, h1b]
  · have hf := boolNotTrue hany
    have h1 : applyOutboxRow db row true now =
        ⟨db.repairs ++ [repairOfEvent row.payload.body],
         markProcessed db.moutbox row.id now⟩ := by
      simp [applyOutboxRow, hf]
    have h2 : applyOutboxRow (applyOutboxRow db row true now) row true now2 =
        applyOutboxRow db row true now := by
      rw [h1]
      simp [applyOutboxRow, List.any_append]
    exact ⟨by rw [h2], fun ht => absurd ht hany,
      fun _ => ⟨by rw [h1], by rw [h1], h2⟩⟩

/-- C4 amended, witnessed on an empty repairs collection: the insert branch
appends the repair. -/
theorem claimC4_amended_witness :
    ((⟨[], [c4Row]⟩ : MechDB).repairs.any
      (fun r => r.id == (repairOfEvent c4Row.payload.body).id) = false) ∧
    (applyOutboxRow ⟨[], [c4Row]⟩ c4Row true 3).repairs =
      ([] : List RepairModel) ++ [repairOfEvent c4Row.payload.body] :=
  ⟨rfl, ((claimC4_amended_applier_idempotent ⟨[], [c4Row]⟩ c4Row 3 4).2.2 rfl).1⟩

/-- C5: starting from a store with at most one repairs row per ID, any
sequence of consumer callbacks and applier transactions — in particular the
same event delivered any number of times — leaves at most one repairs row per
ID, because both paths check for an existing row with the event's ID and skip
the insert. -/
theorem claimC5_at_most_one_row_per_event_id
    (db : MechDB) (steps : List MechStep) (h : atMostOnePerId db.repairs) :
    atMostOnePerId ((steps.foldl mechStep db).repairs) := by
  induction steps generalizing db with
  | nil => exact h
  | cons s ss ih => exact ih _ (mechStep_atMostOne db s h)

/-- C5 witnessed: delivering the same event three times over both paths to an
empty store keeps at most one row per ID. -/
theorem claimC5_witness :
    atMostOnePerId (([] : List RepairModel)) ∧
    atMostOnePerId ((([MechStep.consumer c4Event true true,
        MechStep.applier c4Row true 1,
        MechStep.consumer c4Event true true]).foldl mechStep ⟨[], []⟩).repairs) :=
  ⟨fun i => by simp,
   claimC5_at_most_one_row_per_event_id ⟨[], []⟩
     [MechStep.consumer c4Event true true, MechStep.applier c4Row true 1,
      MechStep.consumer c4Event true true] (fun i => by simp)⟩

/-- Timeline of inserts into the repairs collection around one
StreamAllRepairs call, split at the two repository calls the handler makes in
sequence (repair-service/grpcsvc/repair_server.go lines 27 and 48):
rows committed before the GetAllRepairs snapshot read, rows committed after
the snapshot but before WatchRepairs opens the change stream, and rows
committed after the stream is open. -/
structure RepairTimeline where
  beforeSnapshot : List RepairModel
  betweenSnapshotAndWatch : List RepairModel
  afterWatch : List RepairModel
deriving Repr, DecidableEq

/-- GetAllRepairs at snapshot time delivers exactly the rows committed so
far (repair-service/domain/repository.go lines 170-203). -/
def snapshotRead (t : RepairTimeline) : List RepairModel := t.beforeSnapshot

/-- WatchRepairs (repair-service/domain/repository.go lines 206-220) opens
the change stream with only the insert-filter pipeline and the full-document
option — no resumeAfter token and no startAtOperationTime — so the stream
delivers exactly the inserts that happen after it is opened. -/
def watchInserts (t : RepairTimeline) : List RepairModel := t.afterWatch

/-- StreamAllRepairs (repair-service/grpcsvc/repair_server.go lines 22-88):
send every repair of the snapshot read, then open the change stream and send
every insert it delivers. -/
def streamAllRepairs (t : RepairTimeline) : List RepairModel :=
  snapshotRead t ++ watchInserts t

/-- A repair created in the window between snapshot end and tail start. -/
def c6Lost : RepairModel := ⟨"r2", "u2", "pending", none⟩

/-- Concrete timeline with one insert in each interval. -/
def c6Timeline : RepairTimeline :=
  ⟨[⟨"r1", "u1", "pending", none⟩], [c6Lost], [⟨"r3", "u3", "pending", none⟩]⟩

/-- C6: the claim that a repair created between the end of the snapshot read
and the start of tailing is still delivered is false: StreamAllRepairs opens
the change stream only after the snapshot read, with no resume token, so the
insert committed in between appears in neither the snapshot frames nor the
tail frames. -/
theorem claimC6_counterexample :
    c6Lost ∈ c6Timeline.betweenSnapshotAndWatch ∧
    c6Lost ∉ streamAllRepairs c6Timeline := by
  constructor
  · simp [c6Timeline]
  · intro h
    simp [streamAllRepairs, snapshotRead, watchInserts, c6Timeline, c6Lost] at h

/-- C6 amended: StreamAllRepairs first emits every repair of the snapshot and
then every insert delivered by the change stream, which is opened after the
snapshot read without a resume token; a repair created between snapshot end
and stream open that is in neither interval's reads is therefore never
delivered to the subscriber. -/
theorem claimC6_amended_between_window_lost (t : RepairTimeline) :
    streamAllRepairs t = snapshotRead t ++ watchInserts t ∧
    ∀ r ∈ t.betweenSnapshotAndWatch,
      r ∉ t.beforeSnapshot → r ∉ t.afterWatch → r ∉ streamAllRepairs t := by
  refine ⟨rfl, ?_⟩
  intro r _ h1 h2 hmem
  rcases List.mem_append.mp hmem with h | h
  · exact h1 h
  · exact h2 h

/-- C6 amended, witnessed on the concrete timeline. -/
theorem claimC6_amended_witness :
    c6Lost ∉ streamAllRepairs c6Timeline :=
  (claimC6_amended_between_window_lost c6Timeline).2 c6Lost
    (by simp [c6Timeline])
    (by simp [c6Timeline, c6Lost])
    (by simp [c6Timeline, c6Lost])
